import Mathlib

/-!
Verification of the timeline-driven interpolation engine of
`Design-History-Animation.py` (class `HistoryTimelapse`, mainly
`collectFrames`, lines 250-504).

The embedding is shallow: host objects (parameters, bodies, occurrences,
timeline items) become inductive data; the mutable host state touched by
the engine (parameter values/expressions, opacities, the frame counter,
the timeline marker) is threaded explicitly; host-side failures that the
code catches (`RuntimeError` on a parameter write, exceptions from
`breakLink`) are oracles supplied as boolean functions; Python floats are
modelled as rationals, with Python's raising division modelled by
`Except` where the zero case is reachable.
-/

namespace DesignHistoryAnimation

/-- Symbolic expression of a scalar model parameter.  Writing a numeric
value to a parameter turns its expression into a literal; the code
snapshots and restores expressions for exactly this reason
(lines 443, 502). -/
inductive PExpr where
  | literal (v : ℚ)
  | formula (id : ℕ)
deriving DecidableEq, Repr

/-- A scalar model parameter: current numeric value plus symbolic
expression (host `Parameter` objects, accessed via `.value` and
`.expression`). -/
structure Param where
  value : ℚ
  expr : PExpr
deriving DecidableEq, Repr

/-- Host mutation `param.value = v` (line 455, 501): sets the value and
collapses the expression to a literal. -/
def writeValue (_p : Param) (v : ℚ) : Param := ⟨v, .literal v⟩

/-- Host mutation `param.expression = e` (line 502). -/
def writeExpr (p : Param) (e : PExpr) : Param := ⟨p.value, e⟩

/-- A body/component that can be faded in; only its opacity matters to
the engine. -/
structure Body where
  opacity : ℚ
deriving DecidableEq, Repr

/-- An occurrence as inspected by the Joint/Occurrence handling
(lines 397-410): whether it is a linked (referenced) component, whether
a `breakLink()` attempt would raise (a host oracle), and its owning
component. -/
structure Occ where
  isReferencedComponent : Bool
  breakLinkFails : Bool
  component : Body
deriving DecidableEq, Repr

/-- Extent definitions, tagged as in `isNumericExtent`'s classname
dispatch (lines 239-248). -/
inductive ExtentDef where
  | distanceExtent (distance : Param)
  | symmetricExtent (distance : Param)
  | angleExtent (angle : Param)
  | otherExtent
deriving DecidableEq, Repr

/-- Lines 239-248: an extent is numeric iff it is a
Distance/Symmetric/Angle extent definition. -/
def isNumericExtent : ExtentDef → Bool
  | .distanceExtent _ => true
  | .symmetricExtent _ => true
  | .angleExtent _ => true
  | .otherExtent => false

/-- The scalar parameter of a numeric extent (`.distance` for
distance/symmetric extents, `.angle` for angle extents).  The code only
reads it after `isNumericExtent` returned true, so the `otherExtent`
case is never reached in the engine. -/
def extentParam : ExtentDef → Param
  | .distanceExtent p => p
  | .symmetricExtent p => p
  | .angleExtent p => p
  | .otherExtent => ⟨0, .literal 0⟩

/-- Timeline entities, tagged by the Python classname inspected at
line 306. -/
inductive Entity where
  | extrudeFeature (extentOne : ExtentDef) (hasTwoExtents : Bool) (extentTwo : ExtentDef)
      (operation : ℕ) (bodies : List Body)
  | revolveFeature (extentDefinition : ExtentDef)
  | moveFeature
  | mirrorFeature
  | jointFeature (occurrenceOne : Option Occ)
  | occurrenceEntity (occ : Occ)
  | rectangularPatternFeature (quantityOne : Option Param) (distanceOne : Option Param)
      (quantityTwo : Option Param) (distanceTwo : Option Param)
  | sketch
  | constructionPlane
  | constructionAxis
  | constructionPoint
  | threadFeature
  | combine
  | canvas
  | other
deriving DecidableEq, Repr

/-- Lines 310-333: entity kinds that make the loop `continue` before the
marker is set.  (`Occurrence` is skipped at line 310; its dispatch case
at lines 404-410 is dead code.) -/
def skipKindEntity : Entity → Bool
  | .occurrenceEntity _ => true
  | .sketch => true
  | .constructionPlane => true
  | .constructionAxis => true
  | .constructionPoint => true
  | .threadFeature => true
  | .combine => true
  | .canvas => true
  | _ => false

/-- Move and Mirror write a diagnostic line to the log and `continue`
(lines 370-383), after the marker has been set. -/
def isLoggedEntity : Entity → Bool
  | .moveFeature => true
  | .mirrorFeature => true
  | _ => false

/-- A timeline item (lines 289-305): suppressed flag, group flag, and
its entity (possibly absent). -/
structure TimelineItem where
  isSuppressed : Bool
  isGroup : Bool
  entity : Option Entity
deriving DecidableEq, Repr

/-- Lines 291-336: an item is skipped (loop `continue`s before the
marker is set) iff it is suppressed, is a group, has no entity, or its
entity kind is in the skip set. -/
def shouldSkip (it : TimelineItem) : Bool :=
  it.isSuppressed || it.isGroup ||
    (match it.entity with
     | none => true
     | some e => skipKindEntity e)

/-- Python `int()` truncation toward zero on a rational (line 416, 432). -/
def pyInt (q : ℚ) : ℤ := if 0 ≤ q then ⌊q⌋ else ⌈q⌉

/-- An interpolation target: the parameter it drives plus the
per-step size and offset appended at extraction time (the parallel
lists `interpolatedParameters` / `stepSizes` / `stepOffsets`,
lines 342-344). -/
structure InterpTarget where
  param : Param
  stepSize : ℚ
  stepOffset : ℚ
deriving DecidableEq, Repr

/-- Observable events of the Joint/Occurrence link-break-and-fade
snippet. -/
inductive JointEvent where
  | breakLinkAttempt (succeeded : Bool)
  | addOpacityTarget (c : Body)
deriving DecidableEq, Repr

/-- Lines 397-403 (and the parallel dead code at 405-410): if the
occurrence is a referenced component, attempt `breakLink()`, swallowing
any exception; in every case append the occurrence's component to
`alphaComponents`. -/
def runOccFade (occ : Occ) : List JointEvent × List Body :=
  ((if occ.isReferencedComponent then [JointEvent.breakLinkAttempt (!occ.breakLinkFails)] else [])
      ++ [JointEvent.addOpacityTarget occ.component],
   [occ.component])

/-- Lines 392-403: the Joint dispatch case, guarded by
`if entity.occurrenceOne`. -/
def runJoint : Option Occ → List JointEvent × List Body
  | none => ([], [])
  | some occ => runOccFade occ

/-- Lines 347-356 (and the identical 359-368 for side two): one Extrude
side.  A numeric extent contributes an interpolation target with step
`value / interpolationFrames` and offset 0; otherwise, for a
NewBody (3) or NewComponent (4) feature operation, every body of the
feature becomes an opacity target. -/
def extrudeSide (fPO : ℚ) (ext : ExtentDef) (operation : ℕ) (bodies : List Body) :
    List InterpTarget × List Body :=
  if isNumericExtent ext then
    ([⟨extentParam ext, (extentParam ext).value / fPO, 0⟩], [])
  else if operation = 3 ∨ operation = 4 then
    ([], bodies)
  else
    ([], [])

/-- Lines 412-427: first pattern direction.  `stepSize` is
`int(quantity / interpolationFrames)` clamped up to 1; a paired distance
parameter adds a second target with step `distStepSize * stepSize` and
offset `-distStepSize`. -/
def rectDirOne (fPO : ℚ) (quantityOne distanceOne : Option Param) : List InterpTarget :=
  match quantityOne with
  | none => []
  | some param =>
    if param.value ≠ 1 then
      let stepSize0 : ℤ := pyInt (param.value / fPO)
      let stepSize : ℤ := if stepSize0 < 1 then 1 else stepSize0
      ⟨param, (stepSize : ℚ), 0⟩ ::
        (match distanceOne with
         | none => []
         | some dist =>
           let distStepSize := dist.value / (param.value - 1)
           [⟨dist, distStepSize * (stepSize : ℚ), -distStepSize⟩])
    else []

/-- Lines 428-440: second pattern direction; identical to the first
except that the `stepSize < 1` clamp is missing. -/
def rectDirTwo (fPO : ℚ) (quantityTwo distanceTwo : Option Param) : List InterpTarget :=
  match quantityTwo with
  | none => []
  | some param =>
    if param.value ≠ 1 then
      let stepSize : ℤ := pyInt (param.value / fPO)
      ⟨param, (stepSize : ℚ), 0⟩ ::
        (match distanceTwo with
         | none => []
         | some dist =>
           let distStepSize := dist.value / (param.value - 1)
           [⟨dist, distStepSize * (stepSize : ℚ), -distStepSize⟩])
    else []

/-- Lines 341-440: the dispatch that fills `interpolatedParameters` /
`stepSizes` / `stepOffsets` (bundled here as `InterpTarget`s) and
`alphaComponents`.  Kinds with no dispatch case fall through with empty
targets.  `fPO` is the configured `interpolationFrames`. -/
def extractTargets (fPO : ℚ) : Entity → List InterpTarget × List Body
  | .extrudeFeature extentOne hasTwoExtents extentTwo operation bodies =>
    let s1 := extrudeSide fPO extentOne operation bodies
    let s2 := if hasTwoExtents then extrudeSide fPO extentTwo operation bodies else ([], [])
    (s1.1 ++ s2.1, s1.2 ++ s2.2)
  | .revolveFeature extentDefinition =>
    if isNumericExtent extentDefinition then
      ([⟨extentParam extentDefinition, (extentParam extentDefinition).value / fPO, 0⟩], [])
    else ([], [])
  | .jointFeature occurrenceOne => ([], (runJoint occurrenceOne).2)
  | .occurrenceEntity occ => ([], (runOccFade occ).2)
  | .rectangularPatternFeature qOne dOne qTwo dTwo =>
    (rectDirOne fPO qOne dOne ++ rectDirTwo fPO qTwo dTwo, [])
  | _ => ([], [])

/-- Lines 451-453: the interpolated value for one target at inner-loop
step `j` (0-based): `stepSize * (j + 1) + stepOffset`, clamped by
magnitude to the original value. -/
def appliedValue (stepSize stepOffset originalValue : ℚ) (j : ℕ) : ℚ :=
  let value := stepSize * ((j : ℚ) + 1) + stepOffset
  if |value| > |originalValue| then originalValue else value

/-- Lines 464-466: the opacity written to one fade target at inner-loop
step `j`: `originalAlpha * (j + 1) / interpolationFrames`, clamped by
magnitude to the original opacity. -/
def alphaValue (originalAlpha : ℚ) (interpolationFrames : ℕ) (j : ℕ) : ℚ :=
  let value := originalAlpha * ((j : ℚ) + 1) / (interpolationFrames : ℚ)
  if |value| > |originalAlpha| then originalAlpha else value

/-- Lines 449-462: the inner `for k` loop over `interpolatedParameters`.
Slot `k` receives `appliedValue` at step `j` unless the host raises
`RuntimeError` on that write (oracle `rejects j k`), in which case that
single write is skipped (`continue`) and the slot keeps its previous
value. -/
def stepParamsAux (rejects : ℕ → ℕ → Bool) (stepSizes stepOffsets origValues : List ℚ)
    (j : ℕ) : ℕ → List Param → List Param
  | _, [] => []
  | k, p :: ps =>
    (if rejects j k then p
     else writeValue p (appliedValue (stepSizes.getD k 0) (stepOffsets.getD k 0)
        (origValues.getD k 0) j))
      :: stepParamsAux rejects stepSizes stepOffsets origValues j (k + 1) ps

/-- The parameter writes that actually reach the host at step `j`
(observation of lines 450-462): one `(j, k, value)` entry per
non-rejected target index `k < n`. -/
def stepWrites (rejects : ℕ → ℕ → Bool) (stepSizes stepOffsets origValues : List ℚ)
    (j : ℕ) (n : ℕ) : List (ℕ × ℕ × ℚ) :=
  (List.range n).filterMap fun k =>
    if rejects j k then none
    else some (j, k, appliedValue (stepSizes.getD k 0) (stepOffsets.getD k 0)
      (origValues.getD k 0) j)

/-- State threaded through one operation's interpolation loop: the
targets' parameters, the fade targets' opacities, the trace of
successful parameter writes, the emitted frame numbers and the global
frame counter `num`. -/
structure OpState where
  params : List Param
  alphas : List ℚ
  writes : List (ℕ × ℕ × ℚ)
  frames : List ℕ
  num : ℕ
deriving Repr

/-- Lines 447-497: one iteration `j` of the per-operation loop:
interpolate parameters (with per-write rejection), rewrite every
opacity from its snapshot (lines 463-468, never guarded), then emit the
frame named by the current counter and increment it (lines 484-497). -/
def opStep (fPO : ℕ) (rejects : ℕ → ℕ → Bool)
    (stepSizes stepOffsets origValues origAlphas : List ℚ)
    (st : OpState) (j : ℕ) : OpState :=
  { params := stepParamsAux rejects stepSizes stepOffsets origValues j 0 st.params
    alphas := origAlphas.map fun a => alphaValue a fPO j
    writes := st.writes ++ stepWrites rejects stepSizes stepOffsets origValues j st.params.length
    frames := st.frames ++ [st.num]
    num := st.num + 1 }

/-- Lines 500-502: restore every interpolated parameter's value and then
its symbolic expression from the snapshots; the net effect on slot `k`
is the snapshot pair. -/
def restoreParamsAux (origValues : List ℚ) (origExprs : List PExpr) :
    ℕ → List Param → List Param
  | _, [] => []
  | k, _ :: ps =>
    ⟨origValues.getD k 0, origExprs.getD k (.literal 0)⟩
      :: restoreParamsAux origValues origExprs (k + 1) ps

/-- Lines 503-504: restore every fade target's opacity from its
snapshot. -/
def restoreAlphasAux (origAlphas : List ℚ) : ℕ → List ℚ → List ℚ
  | _, [] => []
  | k, _ :: xs => origAlphas.getD k 0 :: restoreAlphasAux origAlphas (k + 1) xs

/-- Lines 441-504: run one non-skipped, non-logged operation.  Snapshot
originals (442-444), loop `budget` steps (447-497), then restore
(499-504).  `startNum` is the global frame counter on entry. -/
def runOperation (fPO budget : ℕ) (rejects : ℕ → ℕ → Bool)
    (targets : List InterpTarget) (alphaComponents : List Body) (startNum : ℕ) : OpState :=
  let interpolatedParameters := targets.map (·.param)
  let stepSizes := targets.map (·.stepSize)
  let stepOffsets := targets.map (·.stepOffset)
  let originalValues := interpolatedParameters.map (·.value)
  let originalExpressions := interpolatedParameters.map (·.expr)
  let originalAlphas := alphaComponents.map (·.opacity)
  let looped := (List.range budget).foldl
      (opStep fPO rejects stepSizes stepOffsets originalValues originalAlphas)
      ⟨interpolatedParameters, originalAlphas, [], [], startNum⟩
  { looped with
      params := restoreParamsAux originalValues originalExpressions 0 looped.params
      alphas := restoreAlphasAux originalAlphas 0 looped.alphas }

/-- Configuration of one `collectFrames` run (lines 250-263).
`startPos` is already zero-indexed (`start = self.start - 1`, line 251). -/
structure Config where
  startPos : ℕ
  endPos : ℕ
  interpolationFrames : ℕ
  finalFrames : ℕ
deriving DecidableEq, Repr

/-- Per-run mutable state: global frame counter (line 280), emitted
frame numbers, and the timeline marker position. -/
structure RunState where
  num : ℕ
  frames : List ℕ
  marker : ℕ
deriving DecidableEq, Repr

/-- Line 446: the frame budget of the operation at timeline index `i`:
`interpolationFrames`, plus `finalFrames` when `i` is the last index of
the range (`i < end - 1` written overflow-free as `i + 1 < end`). -/
def opFrameBudget (cfg : Config) (i : ℕ) : ℕ :=
  if i + 1 < cfg.endPos then cfg.interpolationFrames
  else cfg.interpolationFrames + cfg.finalFrames

/-- Lines 286-504: the body of `for i in range(start, end)` for one
index `i`.  Skipped items `continue` before the marker assignment at
line 339, so they leave the whole run state (marker included) unchanged;
Move/Mirror set the marker, log, and `continue` (no frames); every other
item runs the interpolation loop.  `rejects i j k` is the host oracle
for a parameter-write `RuntimeError` at operation `i`, step `j`,
target `k`. -/
def processIndex (cfg : Config) (items : ℕ → TimelineItem) (rejects : ℕ → ℕ → ℕ → Bool)
    (st : RunState) (i : ℕ) : RunState :=
  let it := items i
  if shouldSkip it then st
  else
    let st1 : RunState := { st with marker := i + 1 }
    match it.entity with
    | none => st1
    | some e =>
      if isLoggedEntity e then st1
      else
        let t := extractTargets (cfg.interpolationFrames : ℚ) e
        let r := runOperation cfg.interpolationFrames (opFrameBudget cfg i) (rejects i)
          t.1 t.2 st1.num
        { st1 with num := r.num, frames := st1.frames ++ r.frames }

/-- Lines 280-504: the whole run.  The frame counter starts at 0
(line 280); `marker0` is the timeline marker on entry.  (Each
operation's parameter/opacity state is restored before the next index,
so `items` staying constant across the fold is faithful; this is proved
about `runOperation` below.) -/
def runTimelapse (cfg : Config) (items : ℕ → TimelineItem) (rejects : ℕ → ℕ → ℕ → Bool)
    (marker0 : ℕ) : RunState :=
  (List.range' cfg.startPos (cfg.endPos - cfg.startPos)).foldl
    (processIndex cfg items rejects) ⟨0, [], marker0⟩

/-- The frame budget as claim C2 words it: `framesPerOperation` for
every operation except the last position of the range `[start, end)`,
which receives `framesPerOperation + finalFrames`. -/
def claimOpBudget (cfg : Config) (i : ℕ) : ℕ :=
  if i = cfg.endPos - 1 then cfg.interpolationFrames + cfg.finalFrames
  else cfg.interpolationFrames

/-- The total frame count as claim C2 words it: the sum, over all
non-skipped non-logged operations in the configured range, of that
operation's frame budget. -/
def claimBudgetSum (cfg : Config) (items : ℕ → TimelineItem) : ℕ :=
  ((List.range' cfg.startPos (cfg.endPos - cfg.startPos)).map fun i =>
    if shouldSkip (items i) then 0
    else
      match (items i).entity with
      | none => 0
      | some e => if isLoggedEntity e then 0 else claimOpBudget cfg i).sum

/-- Python exceptions reachable in the modelled fragment. -/
inductive PyErr where
  | zeroDivisionError
  | fileNotFoundError
deriving DecidableEq, Repr

/-- Python float division: raises `ZeroDivisionError` on a zero
denominator (it does not return an IEEE infinity). -/
def pyDiv (a b : ℚ) : Except PyErr ℚ :=
  if b = 0 then .error .zeroDivisionError else .ok (a / b)

/-- Line 261: the effective `framesPerRotation` used by the run is the
configured value when rotation is enabled and 0 otherwise. -/
def effectiveFramesPerRotation (rotate : Bool) (framesPerRotation : ℕ) : ℕ :=
  if rotate then framesPerRotation else 0

/-- Lines 274-278: the rotation angle `math.pi * 2.0 / framesPerRotation`
is computed unconditionally at run start; `twoPi` abstracts the
irrational constant `math.pi * 2.0`. -/
def rotationAngleSetup (twoPi : ℚ) (rotate : Bool) (framesPerRotation : ℕ) : Except PyErr ℚ :=
  pyDiv twoPi ((effectiveFramesPerRotation rotate framesPerRotation : ℕ) : ℚ)

/-- A camera eye position. -/
abbrev Point3 := ℚ × ℚ × ℚ

/-- Lines 471-481: the per-step camera update is guarded by
`framesPerRotation > 0`; when the guard holds the fixed rotation `rot`
is applied to the eye, otherwise nothing happens. -/
def cameraStep (framesPerRotation : ℕ) (rot : Point3 → Point3) (eye : Point3) : Point3 :=
  if 0 < framesPerRotation then rot eye else eye

/-- Filesystem effects at the head of `collectFrames` and in the frame
loop. -/
inductive FsAction where
  | openLogFile
  | makeOutputDirs
  | saveFrame (n : ℕ)
deriving DecidableEq, Repr

/-- Filesystem state visible to the run: whether the output directory
`outputPath/foldername` exists, whether the log file is open, and the
frames written so far. -/
structure FsState where
  outputDirExists : Bool
  logOpen : Bool
  framesWritten : List ℕ
deriving DecidableEq, Repr

/-- Semantics of one filesystem action.  `open(..., 'w')` on a path in a
missing directory raises `FileNotFoundError`; `os.makedirs(...,
exist_ok=True)` creates the directory and never fails. -/
def execFsAction (st : FsState) : FsAction → Except PyErr FsState
  | .openLogFile =>
    if st.outputDirExists then .ok { st with logOpen := true }
    else .error .fileNotFoundError
  | .makeOutputDirs => .ok { st with outputDirExists := true }
  | .saveFrame n =>
    if st.outputDirExists then .ok { st with framesWritten := st.framesWritten ++ [n] }
    else .error .fileNotFoundError

/-- Run a sequence of filesystem actions; an uncaught exception
terminates the run at that point with the state reached so far
(`false` flags the abnormal termination). -/
def execFsProgram : FsState → List FsAction → FsState × Bool
  | st, [] => (st, true)
  | st, a :: rest =>
    match execFsAction st a with
    | .ok st1 => execFsProgram st1 rest
    | .error _ => (st, false)

/-- Lines 283-284 then 484-487: `collectFrames` opens
`outputPath/log.txt` for writing first, only then calls
`os.makedirs(outputPath, exist_ok=True)`, and saves frames later in the
loop. -/
def collectFramesFsActions (frameIdxs : List ℕ) : List FsAction :=
  FsAction.openLogFile :: FsAction.makeOutputDirs :: frameIdxs.map FsAction.saveFrame

/-! Helper lemmas about the driver loop and the run fold. -/

lemma map_getD_range {α : Type} (d : α) :
    ∀ l : List α, (List.range l.length).map (fun i => l.getD i d) = l
  | [] => rfl
  | x :: xs => by
    rw [List.length_cons, List.range_succ_eq_map, List.map_cons, List.map_map]
    simp only [List.getD_cons_zero, Function.comp_def, Nat.succ_eq_add_one, List.getD_cons_succ]
    exact congrArg (x :: ·) (map_getD_range d xs)

lemma getD_map_value :
    ∀ (l : List Param) (i : ℕ),
      (l.map (·.value)).getD i 0 = (l.getD i ⟨0, .literal 0⟩).value
  | [], _ => rfl
  | _ :: _, 0 => rfl
  | _ :: l, i + 1 => getD_map_value l i

lemma getD_map_expr :
    ∀ (l : List Param) (i : ℕ),
      (l.map (·.expr)).getD i (.literal 0) = (l.getD i ⟨0, .literal 0⟩).expr
  | [], _ => rfl
  | _ :: _, 0 => rfl
  | _ :: l, i + 1 => getD_map_expr l i

lemma restoreParamsAux_eq (V : List ℚ) (E : List PExpr) :
    ∀ (ps : List Param) (k : ℕ),
      restoreParamsAux V E k ps =
        (List.range' k ps.length).map fun i => (⟨V.getD i 0, E.getD i (.literal 0)⟩ : Param)
  | [], _ => rfl
  | _ :: ps, k => by
    rw [restoreParamsAux, List.length_cons, List.range'_succ, List.map_cons]
    exact congrArg _ (restoreParamsAux_eq V E ps (k + 1))

lemma restoreAlphasAux_eq (A : List ℚ) :
    ∀ (xs : List ℚ) (k : ℕ),
      restoreAlphasAux A k xs = (List.range' k xs.length).map fun i => A.getD i 0
  | [], _ => rfl
  | _ :: xs, k => by
    rw [restoreAlphasAux, List.length_cons, List.range'_succ, List.map_cons]
    exact congrArg _ (restoreAlphasAux_eq A xs (k + 1))

lemma restoreParams_snapshot (ps0 ps : List Param) (h : ps.length = ps0.length) :
    restoreParamsAux (ps0.map (·.value)) (ps0.map (·.expr)) 0 ps = ps0 := by
  rw [restoreParamsAux_eq, h, ← List.range_eq_range']
  have hf : (fun i => (⟨(ps0.map (·.value)).getD i 0,
        (ps0.map (·.expr)).getD i (.literal 0)⟩ : Param))
      = fun i => ps0.getD i ⟨0, .literal 0⟩ := by
    funext i
    rw [getD_map_value, getD_map_expr]
  rw [hf]
  exact map_getD_range _ ps0

lemma restoreAlphas_snapshot (a0 xs : List ℚ) (h : xs.length = a0.length) :
    restoreAlphasAux a0 0 xs = a0 := by
  rw [restoreAlphasAux_eq, h, ← List.range_eq_range']
  exact map_getD_range 0 a0

lemma stepParamsAux_length (rejects : ℕ → ℕ → Bool) (SS SO OV : List ℚ) (j : ℕ) :
    ∀ (k : ℕ) (ps : List Param),
      (stepParamsAux rejects SS SO OV j k ps).length = ps.length
  | _, [] => rfl
  | k, _ :: ps => by
    rw [stepParamsAux, List.length_cons, List.length_cons,
      stepParamsAux_length rejects SS SO OV j (k + 1) ps]

lemma range_append_range' : ∀ (b a : ℕ), List.range a ++ List.range' a b = List.range (a + b)
  | 0, a => by simp
  | b + 1, a => by
    rw [List.range'_succ,
      show List.range a ++ (a :: List.range' (a + 1) b)
          = (List.range a ++ [a]) ++ List.range' (a + 1) b by simp,
      ← List.range_succ, range_append_range' b (a + 1)]
    congr 1
    omega

lemma opLoop_spec (fPO : ℕ) (rejects : ℕ → ℕ → Bool) (SS SO OV OA : List ℚ) (st : OpState) :
    ∀ b : ℕ,
      ((List.range b).foldl (opStep fPO rejects SS SO OV OA) st).num = st.num + b ∧
      ((List.range b).foldl (opStep fPO rejects SS SO OV OA) st).frames
        = st.frames ++ List.range' st.num b ∧
      ((List.range b).foldl (opStep fPO rejects SS SO OV OA) st).params.length
        = st.params.length ∧
      ((List.range b).foldl (opStep fPO rejects SS SO OV OA) st).writes
        = st.writes ++ (List.range b).flatMap
            (fun j => stepWrites rejects SS SO OV j st.params.length) ∧
      ((List.range b).foldl (opStep fPO rejects SS SO OV OA) st).alphas
        = if b = 0 then st.alphas else OA.map fun a => alphaValue a fPO (b - 1) := by
  intro b
  induction b with
  | zero => simp
  | succ n ih =>
    obtain ⟨h1, h2, h3, h4, h5⟩ := ih
    rw [List.range_succ, List.foldl_append, List.foldl_cons, List.foldl_nil]
    refine ⟨?_, ?_, ?_, ?_, ?_⟩
    · rw [opStep, h1]
      show st.num + n + 1 = st.num + (n + 1)
      omega
    · rw [opStep]
      show _ ++ [_] = _
      rw [h2, h1, List.append_assoc, List.range'_concat]
      simp
    · rw [opStep]
      show (stepParamsAux _ _ _ _ _ _ _).length = _
      rw [stepParamsAux_length, h3]
    · rw [opStep]
      show _ ++ stepWrites _ _ _ _ _ _ = _
      rw [h4, h3, List.flatMap_append]
      simp [List.append_assoc]
    · rw [opStep]
      simp

lemma runOperation_spec (fPO budget : ℕ) (rejects : ℕ → ℕ → Bool)
    (targets : List InterpTarget) (alphaComponents : List Body) (startNum : ℕ) :
    (runOperation fPO budget rejects targets alphaComponents startNum).num
        = startNum + budget ∧
    (runOperation fPO budget rejects targets alphaComponents startNum).frames
        = List.range' startNum budget ∧
    (runOperation fPO budget rejects targets alphaComponents startNum).params
        = targets.map (·.param) ∧
    (runOperation fPO budget rejects targets alphaComponents startNum).alphas
        = alphaComponents.map (·.opacity) ∧
    (runOperation fPO budget rejects targets alphaComponents startNum).writes
        = (List.range budget).flatMap fun j =>
            stepWrites rejects (targets.map (·.stepSize)) (targets.map (·.stepOffset))
              ((targets.map (·.param)).map (·.value)) j targets.length := by
  have L := opLoop_spec fPO rejects (targets.map (·.stepSize)) (targets.map (·.stepOffset))
    ((targets.map (·.param)).map (·.value)) (alphaComponents.map (·.opacity))
    ⟨targets.map (·.param), alphaComponents.map (·.opacity), [], [], startNum⟩ budget
  obtain ⟨h1, h2, h3, h4, h5⟩ := L
  rw [runOperation]
  refine ⟨h1, by rw [h2]; simp, ?_, ?_, by rw [h4]; simp [List.length_map]⟩
  · show restoreParamsAux _ _ 0 _ = _
    exact restoreParams_snapshot _ _ (by rw [h3])
  · show restoreAlphasAux _ 0 _ = _
    refine restoreAlphas_snapshot _ _ ?_
    rw [h5]
    split
    · rfl
    · rw [List.length_map]

/-- The number of frames the operation at index `i` contributes to the
run, as the code computes it. -/
def contribution (cfg : Config) (items : ℕ → TimelineItem) (i : ℕ) : ℕ :=
  if shouldSkip (items i) then 0
  else
    match (items i).entity with
    | none => 0
    | some e => if isLoggedEntity e then 0 else opFrameBudget cfg i

lemma processIndex_num_frames (cfg : Config) (items : ℕ → TimelineItem)
    (rejects : ℕ → ℕ → ℕ → Bool) (st : RunState) (i : ℕ) :
    (processIndex cfg items rejects st i).num = st.num + contribution cfg items i ∧
    (processIndex cfg items rejects st i).frames
      = st.frames ++ List.range' st.num (contribution cfg items i) := by
  rw [processIndex, contribution]
  by_cases hs : shouldSkip (items i)
  · simp [hs]
  · simp only [hs, if_false, Bool.false_eq_true]
    cases hE : (items i).entity with
    | none => simp
    | some e =>
      by_cases hL : isLoggedEntity e
      · simp [hL]
      · obtain ⟨g1, g2, -, -, -⟩ := runOperation_spec cfg.interpolationFrames
          (opFrameBudget cfg i) (rejects i)
          (extractTargets (cfg.interpolationFrames : ℚ) e).1
          (extractTargets (cfg.interpolationFrames : ℚ) e).2 st.num
        simp [hL, g1, g2]

lemma runLoop_spec (cfg : Config) (items : ℕ → TimelineItem)
    (rejects : ℕ → ℕ → ℕ → Bool) :
    ∀ (l : List ℕ) (st : RunState), st.frames = List.range st.num →
      (l.foldl (processIndex cfg items rejects) st).num
          = st.num + (l.map (contribution cfg items)).sum ∧
      (l.foldl (processIndex cfg items rejects) st).frames
          = List.range ((l.foldl (processIndex cfg items rejects) st).num)
  | [], st => by intro h; simpa using h
  | i :: l, st => by
    intro h
    obtain ⟨g1, g2⟩ := processIndex_num_frames cfg items rejects st i
    have h1 : (processIndex cfg items rejects st i).frames
        = List.range ((processIndex cfg items rejects st i).num) := by
      rw [g1, g2, h, range_append_range']
    obtain ⟨k1, k2⟩ := runLoop_spec cfg items rejects l (processIndex cfg items rejects st i) h1
    rw [List.foldl_cons]
    refine ⟨?_, k2⟩
    rw [k1, g1, List.map_cons, List.sum_cons]
    omega

lemma contribution_eq_claim (cfg : Config) (items : ℕ → TimelineItem) :
    ∀ i ∈ List.range' cfg.startPos (cfg.endPos - cfg.startPos),
      contribution cfg items i =
        (if shouldSkip (items i) then 0
         else
           match (items i).entity with
           | none => 0
           | some e => if isLoggedEntity e then 0 else claimOpBudget cfg i) := by
  intro i hi
  rw [List.mem_range'_1] at hi
  have hb : opFrameBudget cfg i = claimOpBudget cfg i := by
    rw [opFrameBudget, claimOpBudget]
    split_ifs <;> omega
  rw [contribution, hb]

/-- C2: over a full run the global frame counter starts at 0, increases
by exactly 1 per emitted frame, and ends equal to the sum, over all
non-skipped non-logged operations in the configured range, of that
operation's frame budget (`framesPerOperation`, plus `finalFrames` for
exactly the last position of the range); operations with zero targets
still contribute their full budget, so the emitted frame numbers are
exactly `0, 1, ...` with no gaps and no duplicates. -/
theorem frame_counter_complete (cfg : Config) (items : ℕ → TimelineItem)
    (rejects : ℕ → ℕ → ℕ → Bool) (marker0 : ℕ) :
    (runTimelapse cfg items rejects marker0).num = claimBudgetSum cfg items ∧
    (runTimelapse cfg items rejects marker0).frames
      = List.range (claimBudgetSum cfg items) := by
  have h0 : (⟨0, [], marker0⟩ : RunState).frames
      = List.range (⟨0, [], marker0⟩ : RunState).num := rfl
  obtain ⟨k1, k2⟩ := runLoop_spec cfg items rejects
    (List.range' cfg.startPos (cfg.endPos - cfg.startPos)) ⟨0, [], marker0⟩ h0
  have hsum : ((List.range' cfg.startPos (cfg.endPos - cfg.startPos)).map
      (contribution cfg items)).sum = claimBudgetSum cfg items := by
    rw [claimBudgetSum]
    exact congrArg List.sum (List.map_congr_left (contribution_eq_claim cfg items))
  constructor
  · rw [runTimelapse, k1, hsum]
    simp
  · rw [runTimelapse, k2, k1, hsum]
    simp

/-- C3 (code bug): with rotation disabled the effective
`framesPerRotation` is 0 (line 261), yet the rotation transform
`math.pi * 2.0 / framesPerRotation` is computed unconditionally at run
start (line 276), so `collectFrames` raises `ZeroDivisionError` before
emitting any frame — instead of the claimed no-op identity orbiter.
The per-step guard `framesPerRotation > 0` (line 471) would indeed have
left the camera eye untouched had the setup not crashed. -/
theorem rotation_disabled_crashes (twoPi : ℚ) (framesPerRotation : ℕ)
    (rot : Point3 → Point3) (eye : Point3) :
    rotationAngleSetup twoPi false framesPerRotation
      = Except.error PyErr.zeroDivisionError ∧
    cameraStep (effectiveFramesPerRotation false framesPerRotation) rot eye = eye := by
  constructor
  · rw [rotationAngleSetup, effectiveFramesPerRotation]
    simp [pyDiv]
  · rfl

/-- C6 counterexample: the claim says the timeline marker still
advances past a skipped operation; but skipped items `continue` before
the marker assignment (line 339), so a run whose range holds a single
Sketch ends with the marker still at its initial position 0, not past
position 1 (and emits no frames). -/
theorem skip_marker_not_advanced :
    (runTimelapse ⟨0, 1, 5, 0⟩ (fun _ => ⟨false, false, some .sketch⟩)
        (fun _ _ _ => false) 0).marker = 0 ∧
    (runTimelapse ⟨0, 1, 5, 0⟩ (fun _ => ⟨false, false, some .sketch⟩)
        (fun _ _ _ => false) 0).num = 0 := by
  constructor <;> rfl

/-- C6 (amended): processing an operation that is suppressed, grouped,
entity-less, or of a skip-set kind leaves the whole run state unchanged
— no frames, no interpolation loop, and (contrary to the original
claim) no marker advancement either: the marker passes a skipped item
only when a later non-skipped operation is processed.  The extraction
dispatch yields empty target sets for the skip-set feature kinds
(a skipped Occurrence never reaches its dead dispatch case). -/
theorem skip_ops_contribute_nothing (cfg : Config) (items : ℕ → TimelineItem)
    (rejects : ℕ → ℕ → ℕ → Bool) (st : RunState) (i : ℕ)
    (h : shouldSkip (items i) = true) :
    processIndex cfg items rejects st i = st ∧
    ∀ q : ℚ,
      extractTargets q .sketch = ([], []) ∧
      extractTargets q .constructionPlane = ([], []) ∧
      extractTargets q .constructionAxis = ([], []) ∧
      extractTargets q .constructionPoint = ([], []) ∧
      extractTargets q .threadFeature = ([], []) ∧
      extractTargets q .combine = ([], []) ∧
      extractTargets q .canvas = ([], []) := by
  refine ⟨?_, fun q => ⟨rfl, rfl, rfl, rfl, rfl, rfl, rfl⟩⟩
  rw [processIndex]
  simp [h]

theorem skip_ops_contribute_nothing_witness :
    shouldSkip ⟨false, false, some .sketch⟩ = true ∧
    processIndex ⟨0, 1, 5, 0⟩ (fun _ => ⟨false, false, some .sketch⟩)
      (fun _ _ _ => false) ⟨0, [], 0⟩ 0 = ⟨0, [], 0⟩ :=
  ⟨rfl, (skip_ops_contribute_nothing ⟨0, 1, 5, 0⟩
    (fun _ => ⟨false, false, some .sketch⟩) (fun _ _ _ => false) ⟨0, [], 0⟩ 0 rfl).1⟩

/-- C7: when the host rejects parameter writes (oracle `rejects`), only
those single per-step per-target writes are skipped: the loop still runs
all `budget` steps and emits all frames (no abort, no early restore),
the successful writes are exactly the non-rejected `(step, target)`
pairs, and the final restore still leaves every parameter (value and
expression) and every opacity at its pre-operation snapshot. -/
theorem write_rejection_isolated (fPO budget : ℕ) (rejects : ℕ → ℕ → Bool)
    (targets : List InterpTarget) (alphaComponents : List Body) (startNum : ℕ) :
    (runOperation fPO budget rejects targets alphaComponents startNum).frames
        = List.range' startNum budget ∧
    (runOperation fPO budget rejects targets alphaComponents startNum).num
        = startNum + budget ∧
    (runOperation fPO budget rejects targets alphaComponents startNum).params
        = targets.map (·.param) ∧
    (runOperation fPO budget rejects targets alphaComponents startNum).alphas
        = alphaComponents.map (·.opacity) ∧
    (runOperation fPO budget rejects targets alphaComponents startNum).writes
        = (List.range budget).flatMap fun j =>
            (List.range targets.length).filterMap fun k =>
              if rejects j k then none
              else some (j, k, appliedValue ((targets.map (·.stepSize)).getD k 0)
                ((targets.map (·.stepOffset)).getD k 0)
                (((targets.map (·.param)).map (·.value)).getD k 0) j) := by
  obtain ⟨h1, h2, h3, h4, h5⟩ :=
    runOperation_spec fPO budget rejects targets alphaComponents startNum
  exact ⟨h2, h1, h3, h4, h5⟩

/-- C9: a Joint referencing an occurrence severs a referenced-component
link best-effort before setting up the fade: the break is attempted iff
the occurrence is a referenced component, a failing break is silently
swallowed, and in every case (break succeeded, failed, or not
attempted) the occurrence's owning component is added as the opacity
target. -/
theorem joint_fade_always_added (fPO : ℚ) (occ : Occ) :
    extractTargets fPO (.jointFeature (some occ)) = ([], [occ.component]) ∧
    (runJoint (some occ)).1
      = (if occ.isReferencedComponent
         then [JointEvent.breakLinkAttempt (!occ.breakLinkFails)] else [])
          ++ [JointEvent.addOpacityTarget occ.component] ∧
    (runJoint (some occ)).2 = [occ.component] :=
  ⟨rfl, rfl, rfl⟩

/-- C10: `collectFrames` opens `outputPath/log.txt` for writing
(line 283) before `os.makedirs(outputPath, exist_ok=True)` (line 284);
hence on any run whose output directory does not yet exist the open
raises `FileNotFoundError` and the run terminates with the directory
still not created and no frame emitted. -/
theorem log_opened_before_makedirs (frameIdxs : List ℕ) (st : FsState)
    (h : st.outputDirExists = false) :
    execFsProgram st (collectFramesFsActions frameIdxs) = (st, false) ∧
    (collectFramesFsActions frameIdxs).head? = some .openLogFile ∧
    (collectFramesFsActions frameIdxs)[1]? = some .makeOutputDirs := by
  refine ⟨?_, rfl, by simp [collectFramesFsActions]⟩
  rw [collectFramesFsActions, execFsProgram]
  simp [execFsAction, h]

theorem log_opened_before_makedirs_witness :
    (⟨false, false, []⟩ : FsState).outputDirExists = false ∧
    execFsProgram ⟨false, false, []⟩ (collectFramesFsActions [0, 1])
      = (⟨false, false, []⟩, false) :=
  ⟨rfl, (log_opened_before_makedirs [0, 1] ⟨false, false, []⟩ rfl).1⟩

/-- C1 counterexample: for a negative extent value the original claim's
per-step formula `min(V, V/N*s)` disagrees with the code's
clamp-by-magnitude: with V = -1, N = 2, at step s = 1 the code applies
-1/2 (no clamp, since its magnitude does not exceed 1) while the min
formula yields -1. -/
theorem extrude_min_formula_counterexample :
    (extractTargets 2 (.extrudeFeature (.distanceExtent ⟨-1, .literal (-1)⟩)
        false .otherExtent 1 [])).1
      = [⟨⟨-1, .literal (-1)⟩, -(1 / 2), 0⟩] ∧
    appliedValue (-(1 / 2)) 0 (-1) 0 = -(1 / 2) ∧
    min (-1 : ℚ) (-(1 / 2) * ((0 : ℚ) + 1)) = -1 ∧
    (-(1 / 2) : ℚ) ≠ -1 := by
  refine ⟨?_, ?_, ?_, by norm_num⟩
  · show ((if isNumericExtent (.distanceExtent ⟨-1, .literal (-1)⟩) = true then _ else _) : List InterpTarget × List Body).1 ++ _ = _
    norm_num [isNumericExtent, extentParam]
  · rw [appliedValue]
    norm_num
    rw [abs_of_pos (by norm_num : (0 : ℚ) < 1 / 2)]
    norm_num
  · norm_num

/-- C1 (amended): for an Extrude with a single numeric extent of value V
over N interpolation frames, extraction yields exactly one target with
step size V/N and offset 0; the value applied at inner step j
(step s = j + 1) is V/N*s clamped by magnitude to V — equal to
min(V, V/N*s) when V is nonnegative, but equal to the unclamped V/N*s
(not the min) when V is negative — so the value is never extrapolated
past the original in magnitude; and after the operation's loop the
parameter's numeric value and its symbolic expression both equal their
pre-operation snapshots exactly. -/
theorem extrude_step_values (V : ℚ) (ex : PExpr) (N : ℕ) (_hN : 0 < N)
    (budget startNum : ℕ) :
    (extractTargets (N : ℚ)
        (.extrudeFeature (.distanceExtent ⟨V, ex⟩) false .otherExtent 1 [])).1
      = [⟨⟨V, ex⟩, V / (N : ℚ), 0⟩] ∧
    (∀ j : ℕ, appliedValue (V / (N : ℚ)) 0 V j
        = if |V / (N : ℚ) * ((j : ℚ) + 1)| ≤ |V|
          then V / (N : ℚ) * ((j : ℚ) + 1) else V) ∧
    (0 ≤ V → ∀ j : ℕ,
        appliedValue (V / (N : ℚ)) 0 V j = min V (V / (N : ℚ) * ((j : ℚ) + 1))) ∧
    (runOperation N budget (fun _ _ => false)
        [⟨⟨V, ex⟩, V / (N : ℚ), 0⟩] [] startNum).params = [⟨V, ex⟩] ∧
    (runOperation N budget (fun _ _ => false)
        [⟨⟨V, ex⟩, V / (N : ℚ), 0⟩] [] startNum).writes
      = (List.range budget).map fun j => (j, 0, appliedValue (V / (N : ℚ)) 0 V j) := by
  refine ⟨?_, ?_, ?_, ?_, ?_⟩
  · show ((if isNumericExtent (.distanceExtent ⟨V, ex⟩) = true then _ else _) : List InterpTarget × List Body).1 ++ _ = _
    simp [isNumericExtent, extentParam]
  · intro j
    simp only [appliedValue, add_zero]
    rcases le_or_lt |V / (N : ℚ) * ((j : ℚ) + 1)| |V| with hle | hgt
    · rw [if_neg (not_lt.mpr hle), if_pos hle]
    · rw [if_pos hgt, if_neg (not_le.mpr hgt)]
  · intro hV j
    have hvN : (0 : ℚ) ≤ V / (N : ℚ) := div_nonneg hV (Nat.cast_nonneg N)
    have hv : (0 : ℚ) ≤ V / (N : ℚ) * ((j : ℚ) + 1) :=
      mul_nonneg hvN (by positivity)
    simp only [appliedValue, add_zero, abs_of_nonneg hv, abs_of_nonneg hV]
    rcases le_or_lt (V / (N : ℚ) * ((j : ℚ) + 1)) V with hle | hgt
    · rw [if_neg (not_lt.mpr hle), min_eq_right hle]
    · rw [if_pos hgt, min_eq_left (le_of_lt hgt)]
  · simpa using (runOperation_spec N budget (fun _ _ => false)
      [⟨⟨V, ex⟩, V / (N : ℚ), 0⟩] [] startNum).2.2.1
  · have hw := (runOperation_spec N budget (fun _ _ => false)
      [⟨⟨V, ex⟩, V / (N : ℚ), 0⟩] [] startNum).2.2.2.2
    rw [hw]
    conv_rhs => rw [List.map_eq_flatMap]
    congr 1

theorem extrude_step_values_witness :
    0 < 5 ∧
    (runOperation 5 5 (fun _ _ => false)
        [⟨⟨10, .literal 10⟩, (10 : ℚ) / ((5 : ℕ) : ℚ), 0⟩] [] 0).params
      = [⟨10, .literal 10⟩] :=
  ⟨by norm_num, (extrude_step_values 10 (.literal 10) 5 (by norm_num) 5 0).2.2.2.1⟩

/-- C4 counterexample: an Extrude whose side one is numeric but whose
side two (present, `hasTwoExtents`) is non-numeric, with operation type
NewBody, still gets its bodies added as opacity targets — contradicting
the original claim's "only when neither side is numeric". -/
theorem extrude_alpha_despite_numeric_side :
    isNumericExtent (.distanceExtent ⟨2, .literal 2⟩) = true ∧
    (extractTargets 5 (.extrudeFeature (.distanceExtent ⟨2, .literal 2⟩)
        true .otherExtent 3 [⟨1⟩])).2 = [⟨1⟩] :=
  ⟨rfl, rfl⟩

/-- C4 (amended): Extrude target extraction, characterized per side:
each considered extent (side one always; side two iff `hasTwoExtents`)
that is numeric contributes one InterpolationTarget with step
`value / framesPerOperation` and offset 0; and each considered extent
that is NOT numeric contributes, when the feature operation is
NewBody (3) or NewComponent (4), every body of the feature as an
opacity target — independently per side, so bodies are appended even
when the other side is numeric, and twice when both considered sides
are non-numeric. -/
theorem extrude_targets_characterization (fPO : ℚ) (e1 e2 : ExtentDef)
    (hasTwo : Bool) (op : ℕ) (bodies : List Body) :
    extractTargets fPO (.extrudeFeature e1 hasTwo e2 op bodies)
      = ((if isNumericExtent e1 = true
            then [⟨extentParam e1, (extentParam e1).value / fPO, 0⟩] else [])
          ++ (if hasTwo = true ∧ isNumericExtent e2 = true
            then [⟨extentParam e2, (extentParam e2).value / fPO, 0⟩] else []),
         (if isNumericExtent e1 = false ∧ (op = 3 ∨ op = 4) then bodies else [])
          ++ (if hasTwo = true ∧ isNumericExtent e2 = false ∧ (op = 3 ∨ op = 4)
            then bodies else [])) := by
  cases hasTwo <;> cases h1 : isNumericExtent e1 <;> cases h2 : isNumericExtent e2 <;>
    by_cases hop : op = 3 ∨ op = 4 <;>
      simp [extractTargets, extrudeSide, h1, h2, hop]

/-- C5 counterexample: a RectangularPattern whose second direction has
quantity 3 with framesPerOperation 5 receives step size int(3/5) = 0,
not the claimed max(1, floor(3/5)) = 1: the second direction omits the
clamp. -/
theorem rect_second_direction_zero_step :
    extractTargets 5 (.rectangularPatternFeature none none (some ⟨3, .literal 3⟩) none)
      = ([⟨⟨3, .literal 3⟩, 0, 0⟩], []) ∧
    (max 1 (pyInt ((3 : ℚ) / 5)) : ℤ) = 1 ∧
    ((0 : ℚ) ≠ ((1 : ℤ) : ℚ)) := by
  refine ⟨?_, ?_, by norm_num⟩
  · rw [extractTargets]
    norm_num [rectDirOne, rectDirTwo, pyInt]
  · have hp : pyInt ((3 : ℚ) / 5) = 0 := by norm_num [pyInt]
    rw [hp]
    exact max_eq_left (by norm_num)

/-- C5 (amended): for each pattern direction with an existing quantity
parameter of value ≠ 1, the quantity InterpolationTarget's step size is
max(1, int(quantity / framesPerOperation)) for the FIRST direction, but
the SECOND direction omits the ≥ 1 clamp: its step size is the bare
truncation int(quantity / framesPerOperation), which is 0 whenever the
quantity is smaller than framesPerOperation. -/
theorem rect_quantity_step_sizes (fPO : ℚ) (p1 p2 : Param) (d1 d2 : Option Param)
    (h1 : p1.value ≠ 1) (h2 : p2.value ≠ 1) :
    (rectDirOne fPO (some p1) d1).head?
      = some ⟨p1, ((max 1 (pyInt (p1.value / fPO)) : ℤ) : ℚ), 0⟩ ∧
    (rectDirTwo fPO (some p2) d2).head?
      = some ⟨p2, ((pyInt (p2.value / fPO) : ℤ) : ℚ), 0⟩ ∧
    extractTargets fPO (.rectangularPatternFeature (some p1) d1 (some p2) d2)
      = (rectDirOne fPO (some p1) d1 ++ rectDirTwo fPO (some p2) d2, []) := by
  have hmax : (if pyInt (p1.value / fPO) < 1 then (1 : ℤ) else pyInt (p1.value / fPO))
      = max 1 (pyInt (p1.value / fPO)) := by
    rcases lt_or_le (pyInt (p1.value / fPO)) 1 with h | h
    · rw [if_pos h, max_eq_left (le_of_lt h)]
    · rw [if_neg (not_lt.mpr h), max_eq_right h]
  refine ⟨?_, ?_, rfl⟩
  · rw [rectDirOne, if_pos h1]
    cases d1 <;> simp [hmax]
  · rw [rectDirTwo, if_pos h2]
    cases d2 <;> simp

theorem rect_quantity_step_sizes_witness :
    ((⟨10, .literal 10⟩ : Param).value ≠ 1 ∧ (⟨3, .literal 3⟩ : Param).value ≠ 1) ∧
    (rectDirTwo 5 (some ⟨3, .literal 3⟩) none).head?
      = some ⟨⟨3, .literal 3⟩, ((pyInt ((⟨3, .literal 3⟩ : Param).value / 5) : ℤ) : ℚ), 0⟩ :=
  ⟨⟨by norm_num, by norm_num⟩,
   (rect_quantity_step_sizes 5 ⟨10, .literal 10⟩ ⟨3, .literal 3⟩ none none
     (by norm_num) (by norm_num)).2.1⟩

/-- C8: an opacity target with original opacity A receives, at inner
step j (step s = j + 1), the value A*s/framesPerOperation clamped by
magnitude to A: the fade is linear while s ≤ framesPerOperation,
reaches exactly A at s = framesPerOperation, stays clamped at A on any
trailing hold steps, and the opacity is restored to exactly A after the
operation's loop. -/
theorem opacity_fade_linear (A : ℚ) (fPO : ℕ) (hf : 0 < fPO) :
    (∀ j : ℕ, j + 1 ≤ fPO → alphaValue A fPO j = A * ((j : ℚ) + 1) / (fPO : ℚ)) ∧
    alphaValue A fPO (fPO - 1) = A ∧
    (∀ j : ℕ, fPO ≤ j → alphaValue A fPO j = A) ∧
    (∀ (budget : ℕ) (rejects : ℕ → ℕ → Bool) (targets : List InterpTarget) (startNum : ℕ),
      (runOperation fPO budget rejects targets [⟨A⟩] startNum).alphas = [A]) := by
  have hfp : (0 : ℚ) < (fPO : ℚ) := by exact_mod_cast hf
  refine ⟨?_, ?_, ?_, ?_⟩
  · intro j hj
    have hj1 : ((j : ℚ) + 1) ≤ (fPO : ℚ) := by exact_mod_cast hj
    have hb : |A * ((j : ℚ) + 1) / (fPO : ℚ)| ≤ |A| := by
      rw [abs_div, abs_mul,
        abs_of_nonneg (by positivity : (0 : ℚ) ≤ (j : ℚ) + 1), abs_of_pos hfp,
        div_le_iff₀ hfp]
      calc |A| * ((j : ℚ) + 1) ≤ |A| * (fPO : ℚ) :=
            mul_le_mul_of_nonneg_left hj1 (abs_nonneg A)
        _ = |A| * (fPO : ℚ) := rfl
    simp only [alphaValue]
    rw [if_neg (not_lt.mpr hb)]
  · have hcast : (((fPO - 1 : ℕ) : ℚ) + 1) = (fPO : ℚ) := by
      have h1 : (1 : ℕ) ≤ fPO := hf
      push_cast [Nat.cast_sub h1]
      ring
    simp only [alphaValue, hcast, mul_div_cancel_right₀ A (ne_of_gt hfp)]
    simp
  · intro j hj
    rcases eq_or_ne A 0 with rfl | hA
    · simp [alphaValue]
    · have h1 : (fPO : ℚ) < (j : ℚ) + 1 := by exact_mod_cast Nat.lt_succ_of_le hj
      have hgt : |A| < |A * ((j : ℚ) + 1) / (fPO : ℚ)| := by
        rw [abs_div, abs_mul,
          abs_of_nonneg (by positivity : (0 : ℚ) ≤ (j : ℚ) + 1), abs_of_pos hfp,
          lt_div_iff₀ hfp]
        have := mul_lt_mul_of_pos_left h1 (abs_pos.mpr hA)
        linarith
      simp only [alphaValue]
      rw [if_pos hgt]
  · intro budget rejects targets startNum
    simpa using (runOperation_spec fPO budget rejects targets [⟨A⟩] startNum).2.2.2.1

theorem opacity_fade_linear_witness :
    0 < 4 ∧ alphaValue 1 4 (4 - 1) = 1 :=
  ⟨by norm_num, (opacity_fade_linear 1 4 (by norm_num)).2.1⟩

end DesignHistoryAnimation
